import Mathlib

/-!
# Verification of the todo-app CRUD core

Shallow embedding of the todo-app repository's data-access core:

* `Todo` — the persistence entity (`src/lib/db/entities/Todo.ts`), one row of
  the todo table.  Dates are modelled as natural-number timestamps; the clock
  value is passed explicitly to every operation that stamps a row.
* `Store` — the relational table backing the TypeORM repository: the list of
  rows plus a counter supplying fresh primary keys (the model of
  `PrimaryGeneratedColumn("uuid")`; uniqueness of generated ids is an
  environmental assumption, stated as a hypothesis where a claim needs it).
* `TodoService` operations (`src/lib/services/todo.service.ts`): `findAll`,
  `findById`, `create`, `update`, `deleteTodo`, `toggleComplete`, as pure
  state-passing functions.  TypeORM column behaviour declared by the entity
  decorators is part of the model: `CreateDateColumn`/`UpdateDateColumn` are
  both stamped with the current clock at insert, `UpdateDateColumn` is
  refreshed on every save of an existing row, `ORDER BY createdAt DESC` is
  modelled by insertion sort on the matching rows.
* HTTP handlers `getTodos`/`postTodos` (`src/app/api/todos/route.ts`) and
  `patchTodo` (`src/app/api/todos/[id]/route.ts`), with JavaScript string
  truthiness (`!title`, `priority || "medium"`, `if (priority)`) made
  explicit.  JSON request bodies are modelled by the field sets the routes
  document: absent fields are `none`.
* `jsTrim` — JavaScript `String.prototype.trim`: surrounding whitespace
  stripped from both ends, modelled on the character list of the string.
-/

namespace TodoApp

/-- One row of the todo table, after `src/lib/db/entities/Todo.ts`
(the misspelt field name `descriptrion` is the source's).  The dormant
`user` relation is never populated or read by any operation and is omitted. -/
structure Todo where
  id : String
  title : String
  descriptrion : Option String := none
  completed : Bool := false
  priority : String := "medium"
  dueDate : Option Nat := none
  createdAt : Nat := 0
  updatedAt : Nat := 0
deriving Repr, DecidableEq

/-- The backing table: stored rows plus the generator state for fresh
primary keys (`PrimaryGeneratedColumn("uuid")`). -/
structure Store where
  rows : List Todo := []
  nextId : Nat := 0
deriving Repr, DecidableEq

/-- Model of uuid generation: the key drawn from generator state `n`. -/
def genId (n : Nat) : String := "todo-" ++ toString n

/-- JavaScript `String.prototype.trim`: drop whitespace from both ends. -/
def jsTrim (s : String) : String :=
  String.mk (List.rdropWhile Char.isWhitespace
    (List.dropWhile Char.isWhitespace s.data))

/-- `findById(id)`: `repository.findOneBy({ id })` — first row whose
primary key matches, or absence. -/
def findById (i : String) (st : Store) : Option Todo :=
  st.rows.find? (fun r => r.id == i)

/-- `repository.save(todo)` on a row that already exists in the table:
writes the entity back over every row with its primary key and refreshes
the `UpdateDateColumn`.  Returns the saved entity with the new state. -/
def saveExisting (t : Todo) (now : Nat) (st : Store) : Todo × Store :=
  let saved : Todo := { t with updatedAt := now }
  (saved,
   { st with rows := st.rows.map (fun r => if r.id == t.id then saved else r) })

/-- The payload `POST /api/todos` hands to `todoService.create`: `title`
always present (validated first), `priority` always present (defaulted with
`priority || "medium"`), the rest optional. -/
structure CreateInput where
  title : String
  descriptrion : Option String := none
  priority : String := "medium"
  dueDate : Option Nat := none
deriving Repr, DecidableEq

/-- `create(data)`: `repository.create` then `save` on a new entity —
a fresh primary key is generated, the `completed` column takes its declared
default `false` (the caller never sets it), `CreateDateColumn` and
`UpdateDateColumn` are both stamped with the same clock value, and the row
is appended to the table. -/
def create (d : CreateInput) (now : Nat) (st : Store) : Todo × Store :=
  let t : Todo :=
    { id := genId st.nextId
      title := d.title
      descriptrion := d.descriptrion
      completed := false
      priority := d.priority
      dueDate := d.dueDate
      createdAt := now
      updatedAt := now }
  (t, { rows := st.rows ++ [t], nextId := st.nextId + 1 })

/-- A partial update, the documented `PATCH /api/todos/:id` body shape:
any subset of the five writable fields; `none` is an absent key. -/
structure Patch where
  title : Option String := none
  descriptrion : Option String := none
  completed : Option Bool := none
  priority : Option String := none
  dueDate : Option Nat := none
deriving Repr, DecidableEq

/-- `Object.assign(todo, data)`: every key present in `data` overwrites the
corresponding field of `todo` (explicit falsy values included); absent keys
leave the field untouched. -/
def objectAssign (t : Todo) (d : Patch) : Todo :=
  { t with
    title := d.title.getD t.title
    descriptrion := d.descriptrion.or t.descriptrion
    completed := d.completed.getD t.completed
    priority := d.priority.getD t.priority
    dueDate := d.dueDate.or t.dueDate }

/-- `update(id, data)`: load by id; absent gives `null` with the table
untouched; otherwise `Object.assign` the partial over the row and save. -/
def update (i : String) (d : Patch) (now : Nat) (st : Store) :
    Option Todo × Store :=
  match findById i st with
  | none => (none, st)
  | some todo =>
    let merged := objectAssign todo d
    let res := saveExisting merged now st
    (some res.1, res.2)

/-- `delete(id)`: `repository.delete(id)` removes every row with that key
and reports `affected > 0`. -/
def deleteTodo (i : String) (st : Store) : Bool × Store :=
  let affected := (st.rows.filter (fun r => r.id == i)).length
  (decide (0 < affected),
   { st with rows := st.rows.filter (fun r => !(r.id == i)) })

/-- `toggleComplete(id)`: load by id; absent gives `null`; otherwise flip
`completed` and save. -/
def toggleComplete (i : String) (now : Nat) (st : Store) :
    Option Todo × Store :=
  match findById i st with
  | none => (none, st)
  | some todo =>
    let flipped : Todo := { todo with completed := !todo.completed }
    let res := saveExisting flipped now st
    (some res.1, res.2)

/-- The optional filter argument of `findAll`. -/
structure Filters where
  completed : Option Bool := none
  priority : Option String := none
deriving Repr, DecidableEq

/-- The `FindOptionsWhere` object `findAll` builds. -/
structure WhereClause where
  completed : Option Bool := none
  priority : Option String := none
deriving Repr, DecidableEq

/-- The `where` construction of `findAll`: `completed` is copied whenever it
is not `undefined`; `priority` is copied only when truthy (present and
non-empty). -/
def buildWhere (f : Filters) : WhereClause :=
  let w : WhereClause := {}
  let w2 := match f.completed with
    | some c => { w with completed := some c }
    | none => w
  match f.priority with
  | some s => if s != "" then { w2 with priority := some s } else w2
  | none => w2

/-- A row satisfies a `WhereClause` when every present field matches. -/
def rowMatches (w : WhereClause) (t : Todo) : Bool :=
  (match w.completed with | none => true | some c => t.completed == c) &&
  (match w.priority with | none => true | some s => t.priority == s)

/-- `ORDER BY createdAt DESC`: row `a` may precede row `b`. -/
def createdDesc (a b : Todo) : Prop := b.createdAt ≤ a.createdAt

instance : DecidableRel createdDesc :=
  fun a b => inferInstanceAs (Decidable (b.createdAt ≤ a.createdAt))

instance : IsTotal Todo createdDesc :=
  ⟨fun a b => Nat.le_total b.createdAt a.createdAt⟩

instance : IsTrans Todo createdDesc :=
  ⟨fun _ _ _ h1 h2 => Nat.le_trans h2 h1⟩

/-- `findAll(filters)`: `repository.find({ where, order: createdAt DESC })` —
the rows matching the built `where`, ordered newest `createdAt` first. -/
def findAll (f : Filters) (st : Store) : List Todo :=
  List.insertionSort createdDesc (st.rows.filter (rowMatches (buildWhere f)))

/-- A `POST /api/todos` JSON body: every documented field optional. -/
structure PostBody where
  title : Option String := none
  descriptrion : Option String := none
  priority : Option String := none
  dueDate : Option Nat := none
deriving Repr, DecidableEq

/-- Outcome of the `POST /api/todos` handler. -/
inductive PostResult where
  | badRequest (error : String)
  | created (todo : Todo)
deriving Repr, DecidableEq

/-- JavaScript `a || dflt` on an optional string: the string when present
and truthy (non-empty), the default otherwise. -/
def jsOrDefault (o : Option String) (dflt : String) : String :=
  match o with
  | some s => if s != "" then s else dflt
  | none => dflt

/-- `POST /api/todos`: reject when `!title || title.trim().length === 0`
with a 400 envelope and no service call; otherwise call
`todoService.create` with the trimmed title, optionally trimmed
description, and `priority || "medium"`. -/
def postTodos (body : PostBody) (now : Nat) (st : Store) :
    PostResult × Store :=
  match body.title with
  | none => (.badRequest "Title is required", st)
  | some s =>
    if s == "" || (jsTrim s).length == 0 then
      (.badRequest "Title is required", st)
    else
      let d : CreateInput :=
        { title := jsTrim s
          descriptrion := body.descriptrion.map jsTrim
          priority := jsOrDefault body.priority "medium"
          dueDate := body.dueDate }
      let res := create d now st
      (.created res.1, res.2)

/-- The query string of `GET /api/todos`: `none` is an absent parameter,
`some ""` a parameter present with an empty value. -/
structure TodosQuery where
  completed : Option String := none
  priority : Option String := none
deriving Repr, DecidableEq

/-- `GET /api/todos`: when the `completed` parameter is present (not `null`)
the filter becomes `completed === "true"`; the `priority` parameter is
copied when truthy; then `findAll`. -/
def getTodos (q : TodosQuery) (st : Store) : List Todo :=
  let f1 : Filters := {}
  let f2 := match q.completed with
    | some s => { f1 with completed := some (s == "true") }
    | none => f1
  let f3 := match q.priority with
    | some s => if s != "" then { f2 with priority := some s } else f2
    | none => f2
  findAll f3 st

/-- Outcome of an item-resource handler. -/
inductive ItemResult where
  | notFound
  | ok (todo : Todo)
deriving Repr, DecidableEq

/-- `PATCH /api/todos/:id`: pass the parsed body to `todoService.update`;
`null` becomes the 404 envelope, otherwise the 200 envelope with the
updated row. -/
def patchTodo (i : String) (body : Patch) (now : Nat) (st : Store) :
    ItemResult × Store :=
  match update i body now st with
  | (none, st2) => (.notFound, st2)
  | (some t, st2) => (.ok t, st2)

/-- The enumerated priority values of the data model. -/
def validPriority (s : String) : Bool :=
  s == "low" || s == "medium" || s == "high"

/-- The spec's stored-state invariant for one row: title neither empty nor
whitespace-only, priority one of the three enumerated values. -/
def validTodo (t : Todo) : Bool :=
  jsTrim t.title != "" && validPriority t.priority

/-- The stored-state invariant: every row is valid. -/
def storeInv (st : Store) : Bool :=
  st.rows.all validTodo

/-! ## Concrete fixtures used by witness theorems -/

/-- Fixture for the C5 witness: an open medium row and a completed high row. -/
def c5Store : Store :=
  { rows := [{ id := "todo-0", title := "a", createdAt := 1 },
             { id := "todo-1", title := "b", completed := true,
               priority := "high", createdAt := 2 }],
    nextId := 2 }

/-- Fixture for the C10 witness: one open and one completed row. -/
def c10Store : Store :=
  { rows := [{ id := "todo-0", title := "a" },
             { id := "todo-1", title := "b", completed := true }],
    nextId := 2 }

/-- Fixture row for the C3 witness: a completed high-priority row. -/
def c3Row : Todo :=
  { id := "todo-0", title := "Buy milk", completed := true,
    priority := "high", createdAt := 1, updatedAt := 1 }

/-- Fixture store for the C3 witness. -/
def c3Store : Store := { rows := [c3Row], nextId := 1 }

/-- Fixture patch for the C3 witness: an explicitly falsy `completed`. -/
def c3Patch : Patch := { completed := some false }

/-- Fixture row for the C7 witness. -/
def c7Row : Todo :=
  { id := "todo-0", title := "Buy milk", createdAt := 3, updatedAt := 3 }

/-- Fixture store for the C7 witness. -/
def c7Store : Store := { rows := [c7Row], nextId := 1 }

/-- Fixture patch for the C7 witness. -/
def c7Patch : Patch := { title := some "Buy bread", dueDate := some 42 }

/-- Fixture row for the C9 witness. -/
def c9Row : Todo :=
  { id := "todo-0", title := "Buy milk", completed := false,
    createdAt := 1, updatedAt := 1 }

/-- Fixture store for the C9 witness. -/
def c9Store : Store := { rows := [c9Row], nextId := 1 }

/-- Fixture row for the C2 fixtures: a valid stored row. -/
def c2Row : Todo :=
  { id := "todo-0", title := "Buy milk", createdAt := 1, updatedAt := 1 }

/-- Fixture store for the C2 counterexample and witness. -/
def c2Store : Store := { rows := [c2Row], nextId := 1 }

/-! ## Helper lemmas -/

/-- The head of a non-trivial `dropWhile` result fails the predicate. -/
theorem dropWhile_head_false {α : Type} (p : α → Bool) :
    ∀ (l : List α) (a : α) (ts : List α),
      List.dropWhile p l = a :: ts → p a = false
  | [], _, _, h => by simp [List.dropWhile] at h
  | b :: l, a, ts, h => by
    rw [List.dropWhile_cons] at h
    by_cases hb : p b
    · rw [if_pos hb] at h
      exact dropWhile_head_false p l a ts h
    · rw [if_neg hb] at h
      obtain ⟨rfl, -⟩ := List.cons.inj h
      simpa using hb

/-- Trimming both ends of a character list is idempotent. -/
theorem trim_core_idem (p : Char → Bool) (l : List Char) :
    List.rdropWhile p (List.dropWhile p (List.rdropWhile p (List.dropWhile p l)))
      = List.rdropWhile p (List.dropWhile p l) := by
  have h1 : List.dropWhile p (List.rdropWhile p (List.dropWhile p l))
      = List.rdropWhile p (List.dropWhile p l) := by
    cases hk : List.rdropWhile p (List.dropWhile p l) with
    | nil => simp
    | cons a ts =>
      obtain ⟨r, hr⟩ : a :: ts <+: List.dropWhile p l := by
        rw [← hk]
        exact List.rdropWhile_prefix p _
      have hd : List.dropWhile p l = a :: (ts ++ r) := by
        rw [← hr]
        rfl
      have hpa : p a = false := dropWhile_head_false p l a (ts ++ r) hd
      simp [List.dropWhile_cons, hpa]
  rw [h1, List.rdropWhile_idempotent]

/-- `jsTrim` is idempotent. -/
theorem jsTrim_idem (s : String) : jsTrim (jsTrim s) = jsTrim s :=
  congrArg String.mk (trim_core_idem Char.isWhitespace s.data)

/-- A string whose length is not zero is not the empty string. -/
theorem ne_empty_of_length_ne_zero {s : String} (h : s.length ≠ 0) : s ≠ "" := by
  intro hs
  exact h (by rw [hs]; rfl)

/-- A non-empty string has non-zero length. -/
theorem length_ne_zero_of_ne_empty {s : String} (h : s ≠ "") : s.length ≠ 0 := by
  intro hl
  apply h
  apply String.ext
  cases s with
  | mk data =>
    rw [String.length_mk] at hl
    exact List.length_eq_zero.mp hl

/-- The title guard of `POST /api/todos` evaluates to `false` on a title that
is non-blank after trimming. -/
theorem postGuard_false {s : String} (h : jsTrim s ≠ "") :
    (s == "" || (jsTrim s).length == 0) = false := by
  have hs : s ≠ "" := by
    intro hse
    apply h
    rw [hse]
    decide
  have hl : (jsTrim s).length ≠ 0 := length_ne_zero_of_ne_empty h
  simp [hs, hl]

/-- A hit of `findById` has the looked-up primary key. -/
theorem findById_some_id {st : Store} {i : String} {t : Todo}
    (h : findById i st = some t) : t.id = i := by
  have := List.find?_some h
  simpa using this

/-- A hit of `findById` is a stored row. -/
theorem findById_mem {st : Store} {i : String} {t : Todo}
    (h : findById i st = some t) : t ∈ st.rows :=
  List.mem_of_find?_eq_some h

/-- Replacing every row keyed `i` by a row `u` keyed `i` makes the first hit
of a key-`i` search be `u`, provided the search had a hit before. -/
theorem find?_map_replace (i : String) (u : Todo) (hu : u.id = i) :
    ∀ (rs : List Todo) (t : Todo),
      List.find? (fun r => r.id == i) rs = some t →
      List.find? (fun r => r.id == i)
        (rs.map (fun r => if r.id == u.id then u else r)) = some u
  | [], _, h => by simp at h
  | r :: rs, t, h => by
    by_cases hr : r.id = i
    · simp [List.find?_cons, hr, hu]
    · have h' : List.find? (fun x => x.id == i) rs = some t := by
        simpa [List.find?_cons, hr] using h
      have hrec := find?_map_replace i u hu rs t h'
      simpa [List.find?_cons, hr, hu] using hrec

/-- Saving a row whose primary key is the one just looked up makes the next
lookup return exactly the saved row. -/
theorem findById_saveExisting (st : Store) (i : String) (t t2 : Todo) (now : Nat)
    (h : findById i st = some t) (hid : t2.id = t.id) :
    findById i (saveExisting t2 now st).2 = some { t2 with updatedAt := now } := by
  have hti : t.id = i := findById_some_id h
  have hu : ({ t2 with updatedAt := now } : Todo).id = i := hid.trans hti
  have hrep := find?_map_replace i { t2 with updatedAt := now } hu st.rows t h
  simpa [findById, saveExisting] using hrep

/-! ## Claims -/

/-- Claim C1: for every create request with a non-blank title, the created
Todo has a freshly assigned id, `completed = false`, priority defaulted to
"medium" when the input omits it, title trimmed of surrounding whitespace,
and `createdAt` equal to `updatedAt` at creation.  Freshness of the
generated key relative to the stored rows is the uuid-uniqueness
environmental assumption, taken as the hypothesis `hfresh`. -/
theorem c1_create_fields (body : PostBody) (now : Nat) (st : Store) (s : String)
    (ht : body.title = some s) (hnb : jsTrim s ≠ "")
    (hfresh : genId st.nextId ∉ st.rows.map Todo.id) :
    ∃ todo st2, postTodos body now st = (.created todo, st2) ∧
      todo.id = genId st.nextId ∧
      todo.id ∉ st.rows.map Todo.id ∧
      todo.completed = false ∧
      (body.priority = none → todo.priority = "medium") ∧
      todo.title = jsTrim s ∧
      todo.createdAt = todo.updatedAt := by
  have hg := postGuard_false hnb
  simp only [postTodos, ht, hg, Bool.false_eq_true, if_false, create]
  refine ⟨_, _, rfl, rfl, hfresh, rfl, ?_, rfl, rfl⟩
  intro hp
  simp [jsOrDefault, hp]

/-- Witness for C1: a concrete POST on the empty store. -/
theorem c1_create_fields_witness :
    ∃ todo st2,
      postTodos { title := some " Buy milk " } 5 {} = (.created todo, st2) ∧
      todo.id = genId ({} : Store).nextId ∧
      todo.id ∉ ({} : Store).rows.map Todo.id ∧
      todo.completed = false ∧
      (({ title := some " Buy milk " } : PostBody).priority = none →
        todo.priority = "medium") ∧
      todo.title = jsTrim " Buy milk " ∧
      todo.createdAt = todo.updatedAt :=
  c1_create_fields { title := some " Buy milk " } 5 {} " Buy milk " rfl
    (by decide) (by decide)

/-- Claim C6: a POST whose title is missing, empty, or whitespace-only after
trimming responds 400 with the "Title is required" envelope; no service call
is made and the store is returned unchanged. -/
theorem c6_post_blank_title (body : PostBody) (now : Nat) (st : Store)
    (h : body.title = none ∨ ∃ s, body.title = some s ∧ jsTrim s = "") :
    postTodos body now st = (.badRequest "Title is required", st) := by
  rcases h with h | ⟨s, hs, htrim⟩
  · simp [postTodos, h]
  · have hlen : ((jsTrim s).length == 0) = true := by
      rw [htrim]
      decide
    simp [postTodos, hs, hlen]

/-- Witness for C6: a concrete whitespace-only POST body. -/
theorem c6_post_blank_title_witness :
    postTodos { title := some "  " } 7 {} = (.badRequest "Title is required", {}) :=
  c6_post_blank_title { title := some "  " } 7 {}
    (Or.inr ⟨"  ", rfl, by decide⟩)

/-- Claim C4: for every id not present in storage, `findById` returns
absence, `update` returns absence, `toggleComplete` returns absence, and
`delete` returns `false`; the stored state is unchanged in every case (and,
the functions being total, none of them throws). -/
theorem c4_missing_id (st : Store) (i : String) (d : Patch) (now : Nat)
    (h : ∀ r ∈ st.rows, r.id ≠ i) :
    findById i st = none ∧
    update i d now st = (none, st) ∧
    toggleComplete i now st = (none, st) ∧
    deleteTodo i st = (false, st) := by
  have hf : findById i st = none := by
    rw [findById, List.find?_eq_none]
    intro r hr
    simpa using h r hr
  refine ⟨hf, ?_, ?_, ?_⟩
  · simp [update, hf]
  · simp [toggleComplete, hf]
  · have h1 : st.rows.filter (fun r => r.id == i) = [] := by
      rw [List.filter_eq_nil_iff]
      intro r hr
      simpa using h r hr
    have h2 : st.rows.filter (fun r => !(r.id == i)) = st.rows := by
      rw [List.filter_eq_self]
      intro r hr
      simpa using h r hr
    simp [deleteTodo, h1, h2]

/-- Witness for C4: a concrete store that does not contain the id. -/
theorem c4_missing_id_witness :
    findById "missing" { rows := [{ id := "todo-0", title := "Buy milk" }], nextId := 1 } = none ∧
    update "missing" { completed := some true } 9
      { rows := [{ id := "todo-0", title := "Buy milk" }], nextId := 1 } =
      (none, { rows := [{ id := "todo-0", title := "Buy milk" }], nextId := 1 }) ∧
    toggleComplete "missing" 9
      { rows := [{ id := "todo-0", title := "Buy milk" }], nextId := 1 } =
      (none, { rows := [{ id := "todo-0", title := "Buy milk" }], nextId := 1 }) ∧
    deleteTodo "missing" { rows := [{ id := "todo-0", title := "Buy milk" }], nextId := 1 } =
      (false, { rows := [{ id := "todo-0", title := "Buy milk" }], nextId := 1 }) :=
  c4_missing_id { rows := [{ id := "todo-0", title := "Buy milk" }], nextId := 1 }
    "missing" { completed := some true } 9 (by decide)

/-- Claim C8: `delete(id)` returns `true` exactly when a row with that id
existed (and is removed), and a second delete of the same id after a
successful one returns `false` rather than an error. -/
theorem c8_delete_existence (st : Store) (i : String) :
    ((deleteTodo i st).1 = true ↔ ∃ r ∈ st.rows, r.id = i) ∧
    (deleteTodo i (deleteTodo i st).2).1 = false := by
  constructor
  · simp only [deleteTodo, decide_eq_true_eq, List.length_pos, ne_eq,
      List.filter_eq_nil_iff, not_forall, not_not, Decidable.not_not]
    constructor
    · rintro ⟨r, hr, hri⟩
      exact ⟨r, hr, by simpa using hri⟩
    · rintro ⟨r, hr, hri⟩
      exact ⟨r, hr, by simpa using hri⟩
  · have : ((deleteTodo i st).2.rows.filter (fun r => r.id == i)) = [] := by
      simp only [deleteTodo, List.filter_filter]
      rw [List.filter_eq_nil_iff]
      intro r _
      simp
    simp [deleteTodo, this]

/-- The rows produced by `findAll` for a single `completed` filter are a
permutation of the stored rows with that completion status. -/
theorem findAll_completed_perm (st : Store) (b : Bool) :
    List.Perm (findAll { completed := some b } st)
      (st.rows.filter (fun t => t.completed == b)) := by
  have heq : st.rows.filter (rowMatches (buildWhere { completed := some b }))
      = st.rows.filter (fun t => t.completed == b) := by
    apply List.filter_congr
    intro t _
    simp [rowMatches, buildWhere]
  rw [findAll, heq]
  exact List.perm_insertionSort createdDesc _

/-- Claim C5: `findAll` returns the todos ordered by `createdAt` descending;
with both `completed` and `priority` given the result is exactly (up to the
order imposed) the rows matching both predicates; with no filter it returns
all rows. -/
theorem c5_findAll_order_filter (st : Store) (f : Filters) (c : Bool)
    (s : String) (hs : s ≠ "") :
    List.Sorted createdDesc (findAll f st) ∧
    List.Perm (findAll { completed := some c, priority := some s } st)
      (st.rows.filter (fun t => t.completed == c && t.priority == s)) ∧
    List.Perm (findAll {} st) st.rows := by
  refine ⟨List.sorted_insertionSort createdDesc _, ?_, ?_⟩
  · have hb : buildWhere { completed := some c, priority := some s } =
        { completed := some c, priority := some s } := by
      simp [buildWhere, hs]
    have heq : st.rows.filter
        (rowMatches (buildWhere { completed := some c, priority := some s }))
        = st.rows.filter (fun t => t.completed == c && t.priority == s) := by
      rw [hb]
      apply List.filter_congr
      intro t _
      simp [rowMatches]
    rw [findAll, heq]
    exact List.perm_insertionSort createdDesc _
  · have heq : st.rows.filter (rowMatches (buildWhere {})) = st.rows := by
      rw [List.filter_eq_self]
      intro r _
      simp [rowMatches, buildWhere]
    rw [findAll, heq]
    exact List.perm_insertionSort createdDesc _

/-- Witness for C5 at a concrete two-row store and the filter
`completed = true, priority = "high"`. -/
theorem c5_findAll_order_filter_witness :
    List.Sorted createdDesc (findAll { completed := some true } c5Store) ∧
    List.Perm (findAll { completed := some true, priority := some "high" } c5Store)
      (c5Store.rows.filter (fun t => t.completed == true && t.priority == "high")) ∧
    List.Perm (findAll {} c5Store) c5Store.rows :=
  c5_findAll_order_filter c5Store { completed := some true } true "high" (by decide)

/-- Claim C10: when the `completed` query parameter of `GET /api/todos` is
present with any value other than the exact string "true", the handler
silently applies the filter `completed = false`; the exact value "true"
selects the completed todos. -/
theorem c10_get_completed_coercion (st : Store) (s : String) (hs : s ≠ "true") :
    List.Perm (getTodos { completed := some s } st)
      (st.rows.filter (fun t => t.completed == false)) ∧
    List.Perm (getTodos { completed := some "true" } st)
      (st.rows.filter (fun t => t.completed == true)) := by
  constructor
  · have hb : (s == "true") = false := by simp [hs]
    have hg : getTodos { completed := some s } st
        = findAll { completed := some (s == "true") } st := rfl
    rw [hg, hb]
    exact findAll_completed_perm st false
  · have hg : getTodos { completed := some "true" } st
        = findAll { completed := some ("true" == "true") } st := rfl
    rw [hg]
    have hb : ("true" == "true") = true := by decide
    rw [hb]
    exact findAll_completed_perm st true

/-- Witness for C10 at the parameter value "banana" and a concrete store. -/
theorem c10_get_completed_coercion_witness :
    List.Perm (getTodos { completed := some "banana" } c10Store)
      (c10Store.rows.filter (fun t => t.completed == false)) ∧
    List.Perm (getTodos { completed := some "true" } c10Store)
      (c10Store.rows.filter (fun t => t.completed == true)) :=
  c10_get_completed_coercion c10Store "banana" (by decide)

/-- Claim C3: for every existing id, `update(id, partial)` changes exactly
the fields present in the partial plus `updatedAt`: omitted fields keep
their previous values, an explicitly provided falsy value (such as
`completed: false`) does overwrite, and the empty partial leaves every
field unchanged except `updatedAt`, which is refreshed. -/
theorem c3_update_exact_fields (st : Store) (i : String) (d : Patch)
    (now : Nat) (t : Todo) (h : findById i st = some t) :
    ∃ t2, update i d now st =
        (some t2,
         { st with rows := st.rows.map (fun r => if r.id == t.id then t2 else r) }) ∧
      t2.title = d.title.getD t.title ∧
      t2.descriptrion = d.descriptrion.or t.descriptrion ∧
      t2.completed = d.completed.getD t.completed ∧
      t2.priority = d.priority.getD t.priority ∧
      t2.dueDate = d.dueDate.or t.dueDate ∧
      t2.id = t.id ∧
      t2.createdAt = t.createdAt ∧
      t2.updatedAt = now ∧
      (d = {} → t2 = { t with updatedAt := now }) := by
  refine ⟨{ objectAssign t d with updatedAt := now },
    ?_, rfl, rfl, rfl, rfl, rfl, rfl, rfl, rfl, ?_⟩
  · simp only [update]
    rw [h]
    rfl
  · intro hd
    subst hd
    rfl

/-- Witness for C3: the explicitly falsy patch `completed := false` on a
completed stored row. -/
theorem c3_update_exact_fields_witness :
    ∃ t2, update "todo-0" c3Patch 9 c3Store =
        (some t2,
         { c3Store with
            rows := c3Store.rows.map (fun r => if r.id == c3Row.id then t2 else r) }) ∧
      t2.title = c3Patch.title.getD c3Row.title ∧
      t2.descriptrion = c3Patch.descriptrion.or c3Row.descriptrion ∧
      t2.completed = c3Patch.completed.getD c3Row.completed ∧
      t2.priority = c3Patch.priority.getD c3Row.priority ∧
      t2.dueDate = c3Patch.dueDate.or c3Row.dueDate ∧
      t2.id = c3Row.id ∧
      t2.createdAt = c3Row.createdAt ∧
      t2.updatedAt = 9 ∧
      (c3Patch = {} → t2 = { c3Row with updatedAt := 9 }) :=
  c3_update_exact_fields c3Store "todo-0" c3Patch 9 c3Row (by decide)

/-- Claim C7: for every existing todo and every PATCH body, the update
leaves the todo's `id` and `createdAt` unchanged, both on the returned
record and on the stored row. -/
theorem c7_patch_preserves_id_createdAt (st : Store) (i : String)
    (body : Patch) (now : Nat) (t : Todo) (h : findById i st = some t) :
    ∃ t2 st2, patchTodo i body now st = (.ok t2, st2) ∧
      t2.id = t.id ∧ t2.createdAt = t.createdAt ∧
      findById i st2 = some t2 := by
  refine ⟨{ objectAssign t body with updatedAt := now },
          (saveExisting (objectAssign t body) now st).2, ?_, rfl, rfl, ?_⟩
  · simp only [patchTodo, update]
    rw [h]
    rfl
  · exact findById_saveExisting st i t (objectAssign t body) now h rfl

/-- Witness for C7 at a concrete row and patch. -/
theorem c7_patch_preserves_id_createdAt_witness :
    ∃ t2 st2, patchTodo "todo-0" c7Patch 9 c7Store = (.ok t2, st2) ∧
      t2.id = c7Row.id ∧ t2.createdAt = c7Row.createdAt ∧
      findById "todo-0" st2 = some t2 :=
  c7_patch_preserves_id_createdAt c7Store "todo-0" c7Patch 9 c7Row (by decide)

/-- Claim C9: for every existing todo, applying `toggleComplete` twice in
sequence returns the todo to its original `completed` value. -/
theorem c9_toggle_involution (st : Store) (i : String) (t : Todo)
    (n1 n2 : Nat) (h : findById i st = some t) :
    ∃ t1 st1 t2 st2,
      toggleComplete i n1 st = (some t1, st1) ∧
      toggleComplete i n2 st1 = (some t2, st2) ∧
      t1.completed = !t.completed ∧
      t2.completed = t.completed := by
  have h1 : findById i (saveExisting { t with completed := !t.completed } n1 st).2
      = some { t with completed := !t.completed, updatedAt := n1 } :=
    findById_saveExisting st i t { t with completed := !t.completed } n1 h rfl
  refine ⟨{ t with completed := !t.completed, updatedAt := n1 },
          (saveExisting { t with completed := !t.completed } n1 st).2,
          { t with completed := !(!t.completed), updatedAt := n2 },
          (saveExisting { t with completed := !(!t.completed), updatedAt := n1 } n2
            (saveExisting { t with completed := !t.completed } n1 st).2).2,
          ?_, ?_, rfl, ?_⟩
  · simp only [toggleComplete]
    rw [h]
    rfl
  · simp only [toggleComplete]
    rw [h1]
    rfl
  · simp [Bool.not_not]

/-- Witness for C9 at a concrete open row. -/
theorem c9_toggle_involution_witness :
    ∃ t1 st1 t2 st2,
      toggleComplete "todo-0" 5 c9Store = (some t1, st1) ∧
      toggleComplete "todo-0" 6 st1 = (some t2, st2) ∧
      t1.completed = !c9Row.completed ∧
      t2.completed = c9Row.completed :=
  c9_toggle_involution c9Store "todo-0" c9Row 5 6 (by decide)

/-- The stored-state invariant read as a statement about every row. -/
theorem storeInv_iff (st : Store) :
    storeInv st = true ↔ ∀ r ∈ st.rows, validTodo r = true := by
  simp [storeInv, List.all_eq_true]

/-- Saving a valid row preserves the stored-state invariant. -/
theorem storeInv_saveExisting {st : Store} (u : Todo) (now : Nat)
    (hinv : storeInv st = true) (hu : validTodo u = true) :
    storeInv (saveExisting u now st).2 = true := by
  rw [storeInv_iff] at hinv ⊢
  intro x hx
  simp only [saveExisting] at hx
  rw [List.mem_map] at hx
  obtain ⟨r, hr, rfl⟩ := hx
  by_cases hid : (r.id == u.id) = true
  · rw [if_pos hid]
    exact hu
  · rw [if_neg hid]
    exact hinv r hr

/-- The store coming out of the PATCH handler is the store coming out of
the service-level update. -/
theorem patchTodo_snd (i : String) (d : Patch) (now : Nat) (st : Store) :
    (patchTodo i d now st).2 = (update i d now st).2 := by
  unfold patchTodo
  cases hu : update i d now st with
  | mk o s2 => cases o <;> rfl

/-- Claim C2, counterexample: the stored-state invariant is not preserved
by every operation — a PATCH carrying a whitespace-only title is stored
as-is, leaving a row whose title is blank. -/
theorem c2_invariant_counterexample :
    storeInv c2Store = true ∧
    storeInv (patchTodo "todo-0" { title := some "   " } 5 c2Store).2 = false := by
  decide

/-- Claim C2 as amended: the stored-state invariant (titles never blank,
priorities among low/medium/high) is preserved by create, update and
toggleComplete provided the request's own field values respect it — the
POST priority, when present and truthy, is one of the three values; the
PATCH title, when present, is non-blank after trimming, and the PATCH
priority, when present, is one of the three values.  `toggleComplete`
needs no proviso.  (The handlers themselves enforce none of these
provisos, as the counterexample shows.) -/
theorem c2_invariant_amended (st : Store) (now : Nat) (i : String)
    (body : PostBody) (d : Patch)
    (hbp : ∀ s, body.priority = some s → s ≠ "" → validPriority s = true)
    (hdt : ∀ s, d.title = some s → jsTrim s ≠ "")
    (hdp : ∀ s, d.priority = some s → validPriority s = true)
    (hinv : storeInv st = true) :
    storeInv (postTodos body now st).2 = true ∧
    storeInv (patchTodo i d now st).2 = true ∧
    storeInv (toggleComplete i now st).2 = true := by
  refine ⟨?_, ?_, ?_⟩
  · cases ht : body.title with
    | none => simpa [postTodos, ht] using hinv
    | some s =>
      by_cases hg : (s == "" || (jsTrim s).length == 0) = true
      · simpa [postTodos, ht, hg] using hinv
      · have hg' : (s == "" || (jsTrim s).length == 0) = false :=
          Bool.eq_false_iff.mpr hg
        have hlen : (jsTrim s).length ≠ 0 := by
          intro h0
          apply hg
          simp [h0]
        have hnb : jsTrim s ≠ "" := ne_empty_of_length_ne_zero hlen
        simp only [postTodos, ht, hg', Bool.false_eq_true, if_false, create]
        rw [storeInv_iff]
        intro r hr
        simp only [List.mem_append, List.mem_singleton] at hr
        rcases hr with hr | rfl
        · exact (storeInv_iff st).mp hinv r hr
        · have htitle : (jsTrim (jsTrim s) != "") = true := by
            rw [jsTrim_idem]
            simpa using hnb
          have hpri : validPriority (jsOrDefault body.priority "medium") = true := by
            cases hp : body.priority with
            | none => simp [jsOrDefault, validPriority]
            | some q =>
              by_cases hq : q = ""
              · simp [jsOrDefault, hq, validPriority]
              · have hbq : (q != "") = true := by simpa using hq
                simp only [jsOrDefault, hbq, if_true]
                exact hbp q hp hq
          simp only [validTodo, htitle, hpri, Bool.and_self]
  · rw [patchTodo_snd]
    cases hf : findById i st with
    | none => simpa [update, hf] using hinv
    | some t =>
      have htv : validTodo t = true :=
        (storeInv_iff st).mp hinv t (findById_mem hf)
      have htv' : (jsTrim t.title != "") = true ∧ validPriority t.priority = true := by
        simpa [validTodo] using htv
      have hmerged : validTodo (objectAssign t d) = true := by
        have htitle : (jsTrim (objectAssign t d).title != "") = true := by
          cases hdt' : d.title with
          | none =>
            have : (objectAssign t d).title = t.title := by
              simp [objectAssign, hdt']
            rw [this]
            exact htv'.1
          | some s =>
            have : (objectAssign t d).title = s := by
              simp [objectAssign, hdt']
            rw [this]
            simpa using hdt s hdt'
        have hpri : validPriority (objectAssign t d).priority = true := by
          cases hdp' : d.priority with
          | none =>
            have : (objectAssign t d).priority = t.priority := by
              simp [objectAssign, hdp']
            rw [this]
            exact htv'.2
          | some q =>
            have : (objectAssign t d).priority = q := by
              simp [objectAssign, hdp']
            rw [this]
            exact hdp q hdp'
        simp only [validTodo, htitle, hpri, Bool.and_self]
      have hred : (update i d now st).2 = (saveExisting (objectAssign t d) now st).2 := by
        simp only [update]
        rw [hf]
      rw [hred]
      exact storeInv_saveExisting (objectAssign t d) now hinv hmerged
  · cases hf : findById i st with
    | none => simpa [toggleComplete, hf] using hinv
    | some t =>
      have htv : validTodo t = true :=
        (storeInv_iff st).mp hinv t (findById_mem hf)
      have hred : (toggleComplete i now st).2
          = (saveExisting { t with completed := !t.completed } now st).2 := by
        simp only [toggleComplete]
        rw [hf]
      rw [hred]
      exact storeInv_saveExisting { t with completed := !t.completed } now hinv htv

/-- Witness for the amended C2 at a concrete store, POST body and patch. -/
theorem c2_invariant_amended_witness :
    storeInv (postTodos { title := some " Read ", priority := some "high" } 4 c2Store).2 = true ∧
    storeInv (patchTodo "todo-0"
      { title := some "Walk dog", priority := some "low", completed := some false } 4 c2Store).2 = true ∧
    storeInv (toggleComplete "todo-0" 4 c2Store).2 = true :=
  c2_invariant_amended c2Store 4 "todo-0"
    { title := some " Read ", priority := some "high" }
    { title := some "Walk dog", priority := some "low", completed := some false }
    (by intro s hs hne; injection hs with hs'; subst hs'; decide)
    (by intro s hs; injection hs with hs'; subst hs'; decide)
    (by intro s hs; injection hs with hs'; subst hs'; decide)
    (by decide)

end TodoApp
